import Mathlib

set_option maxRecDepth 4000

/-!
Shallow embedding of the VaultSeed backend core (Go):
the Ethereum signature verifier (`utils.VerifyEthereumSignature`), the
challenge-string builders (`utils.GenerateMessageForSigning`,
`utils.GenerateDecryptMessage`), and the HTTP handlers
(`LoginHandler`, `GetNonceHandler`, `CreateContentHandler`,
`DecryptContentHandler`) over the gorm-backed store of `models.User`
and `models.EncryptedContent` rows.

Modelling conventions:
* Bytes are `Nat` (values < 256); Go `byte` subtraction wraps mod 256 and is
  written with an explicit `% 256` where it can underflow.
* `crypto/rand`-backed `utils.GenerateNonce` is modelled by an ambient
  `supply : Nat → String` of successive outputs together with a counter that
  each handler threads through; `rand.Read` failure (practically impossible)
  is not modelled, so the corresponding 500 branches are absent.
* The Keccak-256 hash and the secp256k1 public-key recovery plus address
  derivation (`crypto.Keccak256Hash`, `crypto.SigToPub`,
  `crypto.PubkeyToAddress(...).Hex()`) are opaque external primitives,
  abstracted as the fields of `EthCrypto`; recovery failure is `none`.
* gorm queries/updates are modelled on lists of rows: `First` on a
  `Where` clause is `List.find?`, `Save` updates the row with the matching
  unique key (`users.address` is a unique index, `contents.id` the primary
  key), `Create` appends, and the SQLite autoincrement primary key is the
  `nextContentID` counter.  Store-level failures (the 500 branches) are not
  modelled; the store always answers.
* gin `ShouldBindJSON` with `binding:"required"` fails on a zero value, so it
  is modelled as a non-emptiness (and for `max=100` a length) check on the
  bound fields; Go byte-slicing of the ASCII authorization header and
  addresses is modelled by character operations.
-/

/-! ## Store rows (`models.User`, `models.EncryptedContent`) -/

/-- Row of the `users` table (`models.User`); `address` carries a unique
index; timestamps and the surrogate row id are not consulted by the core and
are omitted. -/
structure User where
  address : String
  publicKey : String
  nonce : String
  deriving Repr, DecidableEq

/-- Row of the `encrypted_contents` table (`models.EncryptedContent`);
`id` is the autoincrement primary key. -/
structure EncryptedContent where
  id : Nat
  userAddress : String
  title : String
  encryptedData : String
  encryptedKey : String
  iv : String
  nonce : String
  deriving Repr, DecidableEq

/-- The gorm/SQLite store: both tables plus the autoincrement counter for
`encrypted_contents.id` (SQLite assigns ids from 1). -/
structure DB where
  users : List User
  contents : List EncryptedContent
  nextContentID : Nat
  deriving Repr, DecidableEq

/-- The empty store right after `AutoMigrate`. -/
def DB.empty : DB := ⟨[], [], 1⟩

/-- Go: `db.Where("address = ?", address).First(&user)`. -/
def findUser (db : DB) (address : String) : Option User :=
  db.users.find? (fun u => u.address == address)

/-- Go: `db.Where("id = ? AND user_address = ?", id, userAddress).First(&content)`. -/
def findContent (db : DB) (id : Nat) (userAddress : String) : Option EncryptedContent :=
  db.contents.find? (fun c => c.id == id && c.userAddress == userAddress)

/-- Go: `user.Nonce = nonce; db.Save(&user)` — updates the row selected by the
unique `address` key. -/
def saveUserNonce (db : DB) (address nonce : String) : DB :=
  { db with users := db.users.map (fun u => if u.address == address then { u with nonce := nonce } else u) }

/-- Go: `content.Nonce = nonce; db.Save(&content)` — updates the row selected
by the primary key `id`. -/
def saveContentNonce (db : DB) (id : Nat) (nonce : String) : DB :=
  { db with contents := db.contents.map (fun c => if c.id == id then { c with nonce := nonce } else c) }

/-! ## `utils` package -/

/-- Go `unicode.IsSpace`, the character class trimmed by `strings.TrimSpace`. -/
def goIsSpace (c : Char) : Bool :=
  let n := c.toNat
  n == 0x20 || (0x9 ≤ n && n ≤ 0xD) || n == 0x85 || n == 0xA0 ||
  n == 0x1680 || (0x2000 ≤ n && n ≤ 0x200A) || n == 0x2028 || n == 0x2029 ||
  n == 0x202F || n == 0x205F || n == 0x3000

/-- Go `strings.TrimSpace`. -/
def goTrimSpace (s : String) : String :=
  String.mk (((s.data.dropWhile goIsSpace).reverse.dropWhile goIsSpace).reverse)

/-- The quote-stripping step of `VerifyEthereumSignature`: drop one pair of
enclosing `"` characters (Go indexes bytes, but `'"'` is ASCII so the
character-level check coincides on valid UTF-8). -/
def stripQuotes (s : String) : String :=
  if s.length ≥ 2 && s.front == '"' && s.back == '"' then (s.drop 1).dropRight 1 else s

/-- The message-cleaning prelude of `VerifyEthereumSignature`:
trim, strip one pair of quotes, trim again. -/
def cleanMessage (message : String) : String :=
  goTrimSpace (stripQuotes (goTrimSpace message))

/-- Value of one hex digit, upper or lower case (Go `encoding/hex`). -/
def hexDigitVal (c : Char) : Option Nat :=
  if '0' ≤ c ∧ c ≤ '9' then some (c.toNat - '0'.toNat)
  else if 'a' ≤ c ∧ c ≤ 'f' then some (c.toNat - 'a'.toNat + 10)
  else if 'A' ≤ c ∧ c ≤ 'F' then some (c.toNat - 'A'.toNat + 10)
  else none

/-- Go `hex.DecodeString`: decodes pairs of hex digits, failing on an odd
length or a non-hex digit. -/
def decodeHexPairs : List Char → Option (List Nat)
  | [] => some []
  | [_] => none
  | c1 :: c2 :: rest =>
    match hexDigitVal c1, hexDigitVal c2, decodeHexPairs rest with
    | some hi, some lo, some bs => some ((16 * hi + lo) :: bs)
    | _, _, _ => none

/-- Go `hexutil` `has0xPrefix`: accepts `0x` or `0X`. -/
def has0xStart : List Char → Bool
  | '0' :: 'x' :: _ => true
  | '0' :: 'X' :: _ => true
  | _ => false

/-- Go `hexutil.Decode`: rejects the empty string and a missing `0x`/`0X`
start, then hex-decodes the rest. -/
def hexutilDecode (s : String) : Option (List Nat) :=
  match s.data with
  | [] => none
  | cs => if has0xStart cs then decodeHexPairs (cs.drop 2) else none

/-- Go `strings.HasPrefix(s, "0x")` (the lower-case marker only). -/
def hasLower0x : List Char → Bool
  | '0' :: 'x' :: _ => true
  | _ => false

/-- The `strings.HasPrefix(signature, "0x")` guard of
`VerifyEthereumSignature`: prepend `0x` when the (lower-case) marker is
absent. -/
def ensure0x (s : String) : String :=
  if hasLower0x s.data then s else "0x" ++ s

/-- Go `strings.ToLower`, character-wise (the addresses compared are ASCII
hex strings, where `Char.toLower` and Go agree). -/
def strToLower (s : String) : String :=
  String.mk (s.data.map Char.toLower)

/-- The V-value adjustment of `VerifyEthereumSignature` on the 65th signature
byte.  `v - 35 - 2` is Go `byte` arithmetic ("assume chain id 1") and wraps
mod 256; written `(v + 256 - 37) % 256`. -/
def adjustV (v : Nat) : Nat :=
  if v == 27 || v == 28 then v - 27
  else if v == 0 || v == 1 then v
  else if 35 ≤ v then (v + 256 - 37) % 256
  else if 27 ≤ v then v - 27
  else 0

/-- `adjustedSigBytes`: copy of the 65 signature bytes with the final byte
replaced by its adjusted V value. -/
def adjustSigBytes (sig : List Nat) : List Nat :=
  sig.take 64 ++ [adjustV (sig.getD 64 0)]

/-- The standard signed-message envelope:
`"\x19Ethereum Signed Message:\n" + byte length + message`
(Go `fmt.Sprintf("\x19Ethereum Signed Message:\n%d%s", len(msgBytes), cleanedMessage)`). -/
def ethSignedTemplate (cleanedMessage : String) : String :=
  "\x19Ethereum Signed Message:\n" ++ toString cleanedMessage.utf8ByteSize ++ cleanedMessage

/-- The external cryptographic primitives used by `VerifyEthereumSignature`,
kept opaque: `keccak256` is `crypto.Keccak256Hash` on the template string;
`recoverAddress hash sig` is `crypto.SigToPub(hash, sig)` followed by
`crypto.PubkeyToAddress(*pubKey).Hex()`, `none` when recovery errors. -/
structure EthCrypto where
  keccak256 : String → List Nat
  recoverAddress : List Nat → List Nat → Option String

/-- Tail of `VerifyEthereumSignature` after hex-decoding the signature:
length check, V adjustment, envelope hashing, recovery, and the
case-insensitive address comparison. -/
def verifyDecodedSig (C : EthCrypto) (cleanedMessage : String) (sigBytes : List Nat)
    (expectedAddress : String) : Bool :=
  if sigBytes.length ≠ 65 then false
  else
    match C.recoverAddress (C.keccak256 (ethSignedTemplate cleanedMessage)) (adjustSigBytes sigBytes) with
    | none => false
    | some recoveredAddr => strToLower recoveredAddr == strToLower expectedAddress

/-- Go `utils.VerifyEthereumSignature(message, signature, expectedAddress)`. -/
def VerifyEthereumSignature (C : EthCrypto) (message signature expectedAddress : String) : Bool :=
  match hexutilDecode (ensure0x signature) with
  | none => false
  | some sigBytes => verifyDecodedSig C (cleanMessage message) sigBytes expectedAddress

/-- Go `utils.GenerateMessageForSigning(address, nonce)`. -/
def GenerateMessageForSigning (address nonce : String) : String :=
  "Sign this message to authenticate with VaultSeed. Address: " ++ address ++ ", Nonce: " ++ nonce

/-- Go `utils.GenerateDecryptMessage(contentID, nonce)`. -/
def GenerateDecryptMessage (contentID : Nat) (nonce : String) : String :=
  "Sign this message to decrypt content. Content ID: " ++ toString contentID ++ ", Nonce: " ++ nonce

/-! ## Requests and responses -/

/-- Go `models.LoginRequest`; every field is `binding:"required"`. -/
structure LoginRequest where
  address : String
  signature : String
  message : String
  nonce : String
  deriving Repr, DecidableEq

/-- Go `models.DecryptContentRequest`; every field is `binding:"required"`
(for the `uint` field that means nonzero). -/
structure DecryptContentRequest where
  contentID : Nat
  signature : String
  message : String
  nonce : String
  deriving Repr, DecidableEq

/-- Go `models.CreateContentRequest`; `Title` is `binding:"required,max=100"`,
the rest `binding:"required"`. -/
structure CreateContentRequest where
  title : String
  encryptedKey : String
  iv : String
  encryptedData : String
  deriving Repr, DecidableEq

/-- One constructor per JSON shape the four handlers emit:
`error s m` is `c.JSON(s, models.ErrorResponse{Error: m})`; the `200` payloads
keep the fields the handler writes (timestamps omitted). -/
inductive HttpResponse where
  | error (status : Nat) (msg : String)
  | loginOk (token : String) (address : String)
  | nonceOk (nonce : String)
  | createOk (id : Nat)
  | decryptOk (id : Nat) (title : String) (placeholder : String)
      (encryptedData : String) (encryptedKey : String) (iv : String)
  deriving Repr, DecidableEq

/-- HTTP status of a response (every non-error payload is sent with 200). -/
def HttpResponse.status : HttpResponse → Nat
  | .error s _ => s
  | _ => 200

/-- gin binding of `models.LoginRequest`. -/
def bindLoginRequest (r : LoginRequest) : Bool :=
  r.address != "" && r.signature != "" && r.message != "" && r.nonce != ""

/-- gin binding of `models.DecryptContentRequest`. -/
def bindDecryptRequest (r : DecryptContentRequest) : Bool :=
  r.contentID != 0 && r.signature != "" && r.message != "" && r.nonce != ""

/-- gin binding of `models.CreateContentRequest`. -/
def bindCreateRequest (r : CreateContentRequest) : Bool :=
  r.title != "" && r.title.length ≤ 100 &&
  r.encryptedKey != "" && r.iv != "" && r.encryptedData != ""

/-- The header-truncation step shared by the content handlers:
`if idx := len(userAddress); idx > 42 { userAddress = userAddress[:42] }`
(byte slicing; headers are ASCII so character slicing coincides). -/
def extractUserAddress (authHeader : String) : String :=
  if authHeader.length > 42 then authHeader.take 42 else authHeader

/-! ## Handlers

Each handler takes the nonce supply and its counter, the store, and the
request, and returns the response together with the updated store and
counter. -/

/-- Go `handlers.LoginHandler`. -/
def LoginHandler (C : EthCrypto) (supply : Nat → String) (ctr : Nat) (db : DB)
    (req : LoginRequest) : HttpResponse × DB × Nat :=
  if ¬ bindLoginRequest req then (.error 400 "Invalid request format", db, ctr)
  else if ¬ VerifyEthereumSignature C req.message req.signature req.address then
    (.error 401 "Invalid signature", db, ctr)
  else
    match findUser db req.address with
    | none =>
        let nonce := supply ctr
        let db1 : DB := { db with users := db.users ++ [{ address := req.address, publicKey := "", nonce := nonce }] }
        let newNonce := supply (ctr + 1)
        let db2 := saveUserNonce db1 req.address newNonce
        (.loginOk (req.address ++ ":" ++ newNonce) req.address, db2, ctr + 2)
    | some _ =>
        let newNonce := supply ctr
        let db1 := saveUserNonce db req.address newNonce
        (.loginOk (req.address ++ ":" ++ newNonce) req.address, db1, ctr + 1)

/-- Go `handlers.GetNonceHandler`; `address` is the query parameter. -/
def GetNonceHandler (supply : Nat → String) (ctr : Nat) (db : DB)
    (address : String) : HttpResponse × DB × Nat :=
  if address = "" then (.error 400 "Address is required", db, ctr)
  else
    match findUser db address with
    | none => (.nonceOk (supply ctr), db, ctr + 1)
    | some user => (.nonceOk user.nonce, db, ctr)

/-- Go `handlers.CreateContentHandler`; `authHeader` is the
`Authorization` header. -/
def CreateContentHandler (supply : Nat → String) (ctr : Nat) (db : DB)
    (authHeader : String) (req : CreateContentRequest) : HttpResponse × DB × Nat :=
  if ¬ bindCreateRequest req then (.error 400 "Invalid request format", db, ctr)
  else if authHeader = "" then (.error 401 "Missing authorization header", db, ctr)
  else
    let userAddress := extractUserAddress authHeader
    match findUser db userAddress with
    | none => (.error 401 "User not found", db, ctr)
    | some _ =>
        let nonce := supply ctr
        let content : EncryptedContent :=
          { id := db.nextContentID, userAddress := userAddress, title := req.title,
            encryptedData := req.encryptedData, encryptedKey := req.encryptedKey,
            iv := req.iv, nonce := nonce }
        let db1 : DB := { db with contents := db.contents ++ [content],
                                  nextContentID := db.nextContentID + 1 }
        (.createOk content.id, db1, ctr + 1)

/-- Go `handlers.DecryptContentHandler`. -/
def DecryptContentHandler (C : EthCrypto) (supply : Nat → String) (ctr : Nat) (db : DB)
    (authHeader : String) (req : DecryptContentRequest) : HttpResponse × DB × Nat :=
  if ¬ bindDecryptRequest req then (.error 400 "Invalid request format", db, ctr)
  else if authHeader = "" then (.error 401 "Missing authorization header", db, ctr)
  else
    let userAddress := extractUserAddress authHeader
    let expectedMessage := GenerateDecryptMessage req.contentID req.nonce
    if ¬ VerifyEthereumSignature C expectedMessage req.signature userAddress then
      (.error 401 "Invalid signature", db, ctr)
    else
      match findContent db req.contentID userAddress with
      | none => (.error 404 "Content not found", db, ctr)
      | some content =>
          if content.nonce ≠ req.nonce then (.error 401 "Invalid nonce", db, ctr)
          else
            let newNonce := supply ctr
            let db1 := saveContentNonce db content.id newNonce
            (.decryptOk content.id content.title "[ENCRYPTED - DECRYPT ON CLIENT]"
              content.encryptedData content.encryptedKey content.iv, db1, ctr + 1)

/-! ## Concrete fixtures used by the theorems -/

/-- A deterministic stand-in for the successive outputs of
`utils.GenerateNonce`. -/
def testSupply : Nat → String := fun n => "N" ++ toString n

/-- Crypto oracle modelling a key whose recovery always yields `addr`
(a signer in possession of the key for `addr`). -/
def acceptCrypto (addr : String) : EthCrypto :=
  ⟨fun _ => [], fun _ _ => some addr⟩

/-- Crypto oracle for which public-key recovery always fails. -/
def rejectCrypto : EthCrypto :=
  ⟨fun _ => [], fun _ _ => none⟩

/-- A well-formed 65-byte signature encoding (0x followed by 130 hex digits). -/
def sig65 : String := "0x" ++ String.mk (List.replicate 130 'a')

/-- A 42-character address (0x followed by 40 hex digits). -/
def addr42 : String := "0x" ++ String.mk (List.replicate 40 'a')

/-- Store holding one user `0xabc` with current nonce `n0`. -/
def dbOneUser : DB := ⟨[⟨"0xabc", "", "n0"⟩], [], 1⟩

/-- Store holding the user `addr42` and one content record (id 1, owner
`addr42`, record nonce `x`). -/
def dbOneContent : DB := ⟨[⟨addr42, "", "n0"⟩], [⟨1, addr42, "t", "d", "k", "i", "x"⟩], 2⟩

/-! ## C1 -/

/-- C1: the claim says `Login` succeeds only when the submitted message equals
the canonical challenge built from the stored nonce, and that a login for an
unknown identity is rejected with an authentication failure.  The code does
neither: with an empty store (identity unknown, `findUser` is `none`) and the
arbitrary message `"hello"` — which is not `GenerateMessageForSigning` output
for any nonce — a signature that recovers to the address makes `LoginHandler`
provision the user and answer 200 with a token in the same call. -/
theorem login_unknown_identity_accepted :
    findUser DB.empty "0xabc" = none ∧
    (LoginHandler (acceptCrypto "0xabc") testSupply 0 DB.empty
        { address := "0xabc", signature := sig65, message := "hello", nonce := "n" }).1
      = HttpResponse.loginOk "0xabc:N1" "0xabc" ∧
    ((LoginHandler (acceptCrypto "0xabc") testSupply 0 DB.empty
        { address := "0xabc", signature := sig65, message := "hello", nonce := "n" }).1).status
      = 200 ∧
    ("hello" == GenerateMessageForSigning "0xabc" "N0") = false := by
  refine ⟨rfl, by decide, by decide, by decide⟩

/-! ## C2 -/

/-- C2: the claim says replaying the same (message, signature, nonce) triple
after a successful login must fail with a nonce-mismatch Unauthorized error.
In the code `LoginHandler` never reads the request's nonce nor rebuilds the
challenge, so the identical request submitted twice (user `0xabc` stored with
nonce `n0`) succeeds both times with status 200. -/
theorem login_replay_accepted :
    (LoginHandler (acceptCrypto "0xabc") testSupply 0 dbOneUser
        { address := "0xabc", signature := sig65, message := "hello", nonce := "n0" }).1
      = HttpResponse.loginOk "0xabc:N0" "0xabc" ∧
    (LoginHandler (acceptCrypto "0xabc") testSupply
        (LoginHandler (acceptCrypto "0xabc") testSupply 0 dbOneUser
          { address := "0xabc", signature := sig65, message := "hello", nonce := "n0" }).2.2
        (LoginHandler (acceptCrypto "0xabc") testSupply 0 dbOneUser
          { address := "0xabc", signature := sig65, message := "hello", nonce := "n0" }).2.1
        { address := "0xabc", signature := sig65, message := "hello", nonce := "n0" }).1
      = HttpResponse.loginOk "0xabc:N1" "0xabc" := by
  refine ⟨by decide, by decide⟩

/-! ## C3 -/

/-- C3: the claim says a credential bound to a stale (rotated) nonce is
rejected as unauthorized by the content operations.  The code truncates the
`Authorization` header to its first 42 bytes — exactly the address — and never
inspects the embedded nonce: with the user's stored nonce already rotated to
`n2`, the stale credential `addr42 ++ ":n1"` still makes
`CreateContentHandler` succeed (status 200, record created). -/
theorem create_accepts_stale_credential :
    (CreateContentHandler testSupply 0 (⟨[⟨addr42, "", "n2"⟩], [], 1⟩ : DB) (addr42 ++ ":n1")
        { title := "t", encryptedKey := "k", iv := "i", encryptedData := "d" }).1
      = HttpResponse.createOk 1 ∧
    extractUserAddress (addr42 ++ ":n1") = addr42 := by
  refine ⟨by decide, by decide⟩

/-! ## C4 -/

/-- C4: counterexample to idempotence and provisioning.  On the empty store,
`GetNonceHandler` answers with a freshly generated nonce but performs no
`Create`: the store it returns is still empty, the identity still does not
exist, and an immediately repeated call answers with a different nonce. -/
theorem getNonce_not_idempotent_cex :
    (GetNonceHandler testSupply 0 DB.empty "0xabc").1 = HttpResponse.nonceOk "N0" ∧
    (GetNonceHandler testSupply 0 DB.empty "0xabc").2.1 = DB.empty ∧
    findUser (GetNonceHandler testSupply 0 DB.empty "0xabc").2.1 "0xabc" = none ∧
    (GetNonceHandler testSupply (GetNonceHandler testSupply 0 DB.empty "0xabc").2.2
        (GetNonceHandler testSupply 0 DB.empty "0xabc").2.1 "0xabc").1
      = HttpResponse.nonceOk "N1" ∧
    (("N0" : String) == "N1") = false := by
  refine ⟨rfl, rfl, rfl, rfl, by decide⟩

/-- C4 (amended): `GetNonceHandler` is a pure query.  For a nonempty address
it returns the stored nonce and the unchanged store when the identity exists,
and when the identity does not exist it returns the next freshly generated
nonce, again leaving the store unchanged — the identity is NOT provisioned. -/
theorem getNonce_query_behavior (supply : Nat → String) (ctr : Nat) (db : DB)
    (address : String) (ha : address ≠ "") :
    (∀ u, findUser db address = some u →
      GetNonceHandler supply ctr db address = (.nonceOk u.nonce, db, ctr)) ∧
    (findUser db address = none →
      GetNonceHandler supply ctr db address = (.nonceOk (supply ctr), db, ctr + 1)) := by
  constructor
  · intro u hu
    simp [GetNonceHandler, ha, hu]
  · intro h
    simp [GetNonceHandler, ha, h]

/-- C4 witness: the amended behavior evaluated on a store holding the user
`0xabc` with nonce `n0`. -/
theorem getNonce_query_behavior_witness :
    GetNonceHandler testSupply 0 dbOneUser "0xabc"
      = (HttpResponse.nonceOk "n0", dbOneUser, 0) :=
  (getNonce_query_behavior testSupply 0 dbOneUser "0xabc" (by decide)).1
    ⟨"0xabc", "", "n0"⟩ rfl

/-! ## C5 -/

/-- C5: counterexample to payload indistinguishability in
`DecryptContentHandler`.  A malformed (hex-invalid) signature yields
`401 "Invalid signature"`, while a well-formed signature over a stale nonce
(request nonce `y`, record nonce `x`) yields `401 "Invalid nonce"`: the two
error payloads differ, so the caller can tell which check failed. -/
theorem decrypt_error_payloads_cex :
    (DecryptContentHandler (acceptCrypto addr42) testSupply 0 dbOneContent addr42
        { contentID := 1, signature := "zz", message := "m", nonce := "x" }).1
      = HttpResponse.error 401 "Invalid signature" ∧
    (DecryptContentHandler (acceptCrypto addr42) testSupply 0 dbOneContent addr42
        { contentID := 1, signature := sig65, message := "m", nonce := "y" }).1
      = HttpResponse.error 401 "Invalid nonce" ∧
    ((HttpResponse.error 401 "Invalid signature") == (HttpResponse.error 401 "Invalid nonce"))
      = false := by
  refine ⟨by decide, by decide, by decide⟩

/-- C5 (amended): a signature failure and a nonce mismatch in
`DecryptContentHandler` share the same 401 status class but carry distinct
error payloads (`"Invalid signature"` vs `"Invalid nonce"`), and neither path
mutates the store. -/
theorem decrypt_unauthorized_status_payload (C : EthCrypto) (supply : Nat → String)
    (ctr : Nat) (db : DB) (authHeader : String) (req : DecryptContentRequest)
    (hb : bindDecryptRequest req = true) (hh : authHeader ≠ "") :
    (VerifyEthereumSignature C (GenerateDecryptMessage req.contentID req.nonce) req.signature
        (extractUserAddress authHeader) = false →
      DecryptContentHandler C supply ctr db authHeader req
        = (.error 401 "Invalid signature", db, ctr)) ∧
    (∀ c, VerifyEthereumSignature C (GenerateDecryptMessage req.contentID req.nonce) req.signature
        (extractUserAddress authHeader) = true →
      findContent db req.contentID (extractUserAddress authHeader) = some c →
      c.nonce ≠ req.nonce →
      DecryptContentHandler C supply ctr db authHeader req
        = (.error 401 "Invalid nonce", db, ctr)) ∧
    (HttpResponse.error 401 "Invalid signature").status
      = (HttpResponse.error 401 "Invalid nonce").status ∧
    (HttpResponse.error 401 "Invalid signature") ≠ (HttpResponse.error 401 "Invalid nonce") := by
  refine ⟨?_, ?_, rfl, by decide⟩
  · intro hv
    simp [DecryptContentHandler, hb, hh, hv]
  · intro c hv hf hn
    simp [DecryptContentHandler, hb, hh, hv, hf, hn]

/-- C5 witness: the two unauthorized branches of the amended statement
evaluated on the one-content store. -/
theorem decrypt_unauthorized_status_payload_witness :
    DecryptContentHandler (acceptCrypto addr42) testSupply 0 dbOneContent addr42
        { contentID := 1, signature := "zz", message := "mm", nonce := "x" }
      = (HttpResponse.error 401 "Invalid signature", dbOneContent, 0) ∧
    DecryptContentHandler (acceptCrypto addr42) testSupply 0 dbOneContent addr42
        { contentID := 1, signature := sig65, message := "mm", nonce := "y" }
      = (HttpResponse.error 401 "Invalid nonce", dbOneContent, 0) :=
  ⟨(decrypt_unauthorized_status_payload (acceptCrypto addr42) testSupply 0 dbOneContent addr42
      { contentID := 1, signature := "zz", message := "mm", nonce := "x" }
      (by decide) (by decide)).1 (by decide),
   (decrypt_unauthorized_status_payload (acceptCrypto addr42) testSupply 0 dbOneContent addr42
      { contentID := 1, signature := sig65, message := "mm", nonce := "y" }
      (by decide) (by decide)).2.1 ⟨1, addr42, "t", "d", "k", "i", "x"⟩
      (by decide) (by decide) (by decide)⟩

/-! ## C6 -/

/-- C6: when every record with the requested id in `db1` belongs to an address
other than the caller and no record in `db2` has the requested id at all, the
two runs of `DecryptContentHandler` produce the same response, neither run
mutates its store or consumes a nonce, and — when the request passes binding,
carries a header and a verifying signature — that common response is exactly
`404 "Content not found"`. -/
theorem decrypt_wrong_owner_like_missing (C : EthCrypto) (supply : Nat → String)
    (ctr : Nat) (db1 db2 : DB) (authHeader : String) (req : DecryptContentRequest)
    (h1 : ∀ c ∈ db1.contents, c.id = req.contentID → c.userAddress ≠ extractUserAddress authHeader)
    (h2 : ∀ c ∈ db2.contents, c.id ≠ req.contentID) :
    (DecryptContentHandler C supply ctr db1 authHeader req).1
      = (DecryptContentHandler C supply ctr db2 authHeader req).1 ∧
    (DecryptContentHandler C supply ctr db1 authHeader req).2 = (db1, ctr) ∧
    (DecryptContentHandler C supply ctr db2 authHeader req).2 = (db2, ctr) ∧
    (bindDecryptRequest req = true → authHeader ≠ "" →
      VerifyEthereumSignature C (GenerateDecryptMessage req.contentID req.nonce) req.signature
        (extractUserAddress authHeader) = true →
      (DecryptContentHandler C supply ctr db1 authHeader req).1
        = HttpResponse.error 404 "Content not found") := by
  have f1 : findContent db1 req.contentID (extractUserAddress authHeader) = none := by
    refine List.find?_eq_none.2 (fun c hc => ?_)
    simp only [Bool.and_eq_true, beq_iff_eq, not_and]
    exact fun hid hua => h1 c hc hid hua
  have f2 : findContent db2 req.contentID (extractUserAddress authHeader) = none := by
    refine List.find?_eq_none.2 (fun c hc => ?_)
    simp only [Bool.and_eq_true, beq_iff_eq, not_and]
    exact fun hid _ => h2 c hc hid
  by_cases hb : bindDecryptRequest req = true
  · by_cases hh : authHeader = ""
    · simp [DecryptContentHandler, hb, hh]
    · by_cases hv : VerifyEthereumSignature C (GenerateDecryptMessage req.contentID req.nonce)
          req.signature (extractUserAddress authHeader) = true
      · simp [DecryptContentHandler, hb, hh, hv, f1, f2]
      · simp [DecryptContentHandler, hb, hh, hv, f1, f2]
  · simp [DecryptContentHandler, hb]

/-- C6 witness: record 1 exists but is owned by `0xother` while the caller is
`addr42` (first run), versus an empty store (second run): same 404 response,
no state change. -/
theorem decrypt_wrong_owner_like_missing_witness :
    (DecryptContentHandler (acceptCrypto addr42) testSupply 0
        (⟨[⟨addr42, "", "n0"⟩], [⟨1, "0xother", "t", "d", "k", "i", "x"⟩], 2⟩ : DB) addr42
        { contentID := 1, signature := sig65, message := "m", nonce := "x" }).1
      = (DecryptContentHandler (acceptCrypto addr42) testSupply 0 DB.empty addr42
        { contentID := 1, signature := sig65, message := "m", nonce := "x" }).1 :=
  (decrypt_wrong_owner_like_missing (acceptCrypto addr42) testSupply 0
    (⟨[⟨addr42, "", "n0"⟩], [⟨1, "0xother", "t", "d", "k", "i", "x"⟩], 2⟩ : DB) DB.empty addr42
    { contentID := 1, signature := sig65, message := "m", nonce := "x" }
    (by decide) (by decide)).1

/-! ## C7 -/

/-- C7: counterexample to "every chain-id-encoded value >= 35 is normalized
into \x7b0,1\x7d, and any other value defaults to 0".  The code computes
`v - 35 - 2` in wrapping byte arithmetic (assuming chain id 1), so `35` and
`36` wrap to `254` and `255` and `39` maps to `2`; and a parity byte in
`29..34` maps to `v - 27`, e.g. `29` to `2`, not to `0`. -/
theorem adjustV_not_canonical_cex :
    adjustV 35 = 254 ∧ (adjustV 35 == 0 || adjustV 35 == 1) = false ∧
    adjustV 36 = 255 ∧ adjustV 39 = 2 ∧
    adjustV 29 = 2 ∧ (adjustV 29 == 0) = false := by
  refine ⟨rfl, by decide, rfl, rfl, rfl, by decide⟩

/-- C7 (amended): the recovery-byte normalization performed by
`VerifyEthereumSignature` maps 27/28 to 0/1 and keeps 0/1; a value >= 35 is
mapped to `(v - 37) mod 256` (the code assumes chain id 1, and the byte
subtraction wraps, so only 37/38 land in \x7b0,1\x7d while 35/36 wrap to
254/255); a value in 29..34 is mapped to `v - 27`; a value in 2..26 defaults
to 0.  Two 65-byte signatures over the same message and key that differ only
in using parity byte 27 versus parity byte 0 are adjusted identically and
hence verify to the same identity. -/
theorem adjustV_characterization :
    (∀ v, v = 27 ∨ v = 28 → adjustV v = v - 27) ∧
    (∀ v, v = 0 ∨ v = 1 → adjustV v = v) ∧
    (∀ v, 35 ≤ v → v ≤ 255 → adjustV v = (v + 256 - 37) % 256) ∧
    (∀ v, 37 ≤ v → v ≤ 38 → adjustV v = v - 37) ∧
    (∀ v, 29 ≤ v → v ≤ 34 → adjustV v = v - 27) ∧
    (∀ v, 2 ≤ v → v ≤ 26 → adjustV v = 0) ∧
    (∀ (C : EthCrypto) (m a : String) (bs : List Nat), bs.length = 64 →
      verifyDecodedSig C m (bs ++ [27]) a = verifyDecodedSig C m (bs ++ [0]) a) := by
  refine ⟨?_, ?_, ?_, ?_, ?_, ?_, ?_⟩
  · rintro v (rfl | rfl) <;> rfl
  · rintro v (rfl | rfl) <;> rfl
  · intro v h1 _
    have e1 : (v == 27 || v == 28) = false := by
      simp only [Bool.or_eq_false_iff, beq_eq_false_iff_ne, ne_eq]
      omega
    have e2 : (v == 0 || v == 1) = false := by
      simp only [Bool.or_eq_false_iff, beq_eq_false_iff_ne, ne_eq]
      omega
    simp [adjustV, e1, e2, h1]
  · intro v h1 h2
    interval_cases v <;> rfl
  · intro v h1 h2
    interval_cases v <;> rfl
  · intro v h1 h2
    interval_cases v <;> rfl
  · intro C m a bs hlen
    have t27 : (bs ++ [(27 : Nat)]).take 64 = bs := by
      rw [← hlen]; exact List.take_left bs [27]
    have t0 : (bs ++ [(0 : Nat)]).take 64 = bs := by
      rw [← hlen]; exact List.take_left bs [0]
    have g27 : (bs ++ [(27 : Nat)]).getD 64 0 = 27 := by
      rw [← hlen]; simp [List.getD_append_right]
    have g0 : (bs ++ [(0 : Nat)]).getD 64 0 = 0 := by
      rw [← hlen]; simp [List.getD_append_right]
    have a27 : adjustSigBytes (bs ++ [27]) = bs ++ [0] := by
      unfold adjustSigBytes
      rw [t27, g27]
      rfl
    have a0 : adjustSigBytes (bs ++ [0]) = bs ++ [0] := by
      unfold adjustSigBytes
      rw [t0, g0]
      rfl
    have l27 : (bs ++ [(27 : Nat)]).length = 65 := by simp [hlen]
    have l0 : (bs ++ [(0 : Nat)]).length = 65 := by simp [hlen]
    simp [verifyDecodedSig, l27, l0, a27, a0]

/-- C7 witness: the parity-27 / parity-0 equivalence evaluated on a concrete
64-byte signature body. -/
theorem adjustV_characterization_witness :
    verifyDecodedSig (acceptCrypto "0xabc") "m" (List.replicate 64 0 ++ [27]) "0xabc"
      = verifyDecodedSig (acceptCrypto "0xabc") "m" (List.replicate 64 0 ++ [0]) "0xabc" :=
  adjustV_characterization.2.2.2.2.2.2 (acceptCrypto "0xabc") "m" "0xabc"
    (List.replicate 64 0) (by decide)

/-! ## C8 -/

/-- C8: `VerifyEthereumSignature` is a total Boolean function (it is a plain
`def` into `Bool`), and every failure path yields `false`: a signature whose
hex decoding fails, one that decodes to a byte length other than 65, and one
on which public-key recovery / address derivation fails all make the verifier
answer `false`. -/
theorem verify_false_on_failure :
    (∀ (C : EthCrypto) (m sig a : String),
      hexutilDecode (ensure0x sig) = none → VerifyEthereumSignature C m sig a = false) ∧
    (∀ (C : EthCrypto) (m sig a : String) (bs : List Nat),
      hexutilDecode (ensure0x sig) = some bs → bs.length ≠ 65 →
      VerifyEthereumSignature C m sig a = false) ∧
    (∀ (C : EthCrypto) (m sig a : String) (bs : List Nat),
      hexutilDecode (ensure0x sig) = some bs →
      C.recoverAddress (C.keccak256 (ethSignedTemplate (cleanMessage m))) (adjustSigBytes bs)
        = none →
      VerifyEthereumSignature C m sig a = false) := by
  refine ⟨?_, ?_, ?_⟩
  · intro C m sig a h
    simp [VerifyEthereumSignature, h]
  · intro C m sig a bs h hl
    simp [VerifyEthereumSignature, verifyDecodedSig, h, hl]
  · intro C m sig a bs h hr
    simp only [VerifyEthereumSignature, h]
    unfold verifyDecodedSig
    split
    · rfl
    · simp [hr]

/-- C8 witness: the three failure paths evaluated concretely — a hex-invalid
signature, a well-formed but 1-byte signature, and a 65-byte signature on
which recovery fails. -/
theorem verify_false_on_failure_witness :
    VerifyEthereumSignature (acceptCrypto "0xabc") "m" "zz" "0xabc" = false ∧
    VerifyEthereumSignature (acceptCrypto "0xabc") "m" "0x00" "0xabc" = false ∧
    VerifyEthereumSignature rejectCrypto "m" sig65 "0xabc" = false :=
  ⟨verify_false_on_failure.1 (acceptCrypto "0xabc") "m" "zz" "0xabc" (by decide),
   verify_false_on_failure.2.1 (acceptCrypto "0xabc") "m" "0x00" "0xabc" [0]
     (by decide) (by decide),
   verify_false_on_failure.2.2 rejectCrypto "m" sig65 "0xabc" (List.replicate 65 170)
     (by decide) rfl⟩

/-! ## C9 -/

/-- C9: counterexample to full independence from the `Message` field.  The
`binding:"required"` validation of `models.DecryptContentRequest` rejects a
request whose `Message` is empty with `400 "Invalid request format"`, while
the same request with a nonempty message proceeds past binding (here failing
later with `401 "Invalid signature"`): two requests identical except for their
`Message` field produce different results. -/
theorem decrypt_message_dependence_cex :
    (DecryptContentHandler rejectCrypto testSupply 0 dbOneContent addr42
        { contentID := 1, signature := "s", message := "", nonce := "x" }).1
      = HttpResponse.error 400 "Invalid request format" ∧
    (DecryptContentHandler rejectCrypto testSupply 0 dbOneContent addr42
        { contentID := 1, signature := "s", message := "mmm", nonce := "x" }).1
      = HttpResponse.error 401 "Invalid signature" ∧
    ((HttpResponse.error 400 "Invalid request format")
        == (HttpResponse.error 401 "Invalid signature")) = false := by
  refine ⟨by decide, by decide, by decide⟩

/-- C9 (amended): among requests whose `Message` passes the required-field
validation (nonempty), the outcome of `DecryptContentHandler` is independent
of the `Message` field: the handler rebuilds the challenge with
`GenerateDecryptMessage` from the request's `ContentID` and `Nonce` and never
reads the client-supplied message. -/
theorem decrypt_outcome_independent_of_message (C : EthCrypto) (supply : Nat → String)
    (ctr : Nat) (db : DB) (authHeader : String) (req : DecryptContentRequest)
    (m1 m2 : String) (h1 : m1 ≠ "") (h2 : m2 ≠ "") :
    DecryptContentHandler C supply ctr db authHeader { req with message := m1 }
      = DecryptContentHandler C supply ctr db authHeader { req with message := m2 } := by
  have b1 : (m1 != "") = true := bne_iff_ne.mpr h1
  have b2 : (m2 != "") = true := bne_iff_ne.mpr h2
  simp [DecryptContentHandler, bindDecryptRequest, b1, b2]

/-- C9 witness: the amended independence evaluated at two concrete nonempty
messages. -/
theorem decrypt_outcome_independent_of_message_witness :
    DecryptContentHandler rejectCrypto testSupply 0 dbOneContent addr42
        { contentID := 1, signature := "s", message := "ma", nonce := "x" }
      = DecryptContentHandler rejectCrypto testSupply 0 dbOneContent addr42
        { contentID := 1, signature := "s", message := "mb", nonce := "x" } :=
  decrypt_outcome_independent_of_message rejectCrypto testSupply 0 dbOneContent addr42
    { contentID := 1, signature := "s", message := "ma", nonce := "x" } "ma" "mb"
    (by decide) (by decide)

/-! ## C10 -/

/-- Updating a user's nonce through `saveUserNonce` is reflected by
`findUser` at the same address. -/
theorem findUser_saveUserNonce (db : DB) (a n : String) :
    findUser (saveUserNonce db a n) a
      = (findUser db a).map (fun u => { u with nonce := n }) := by
  unfold findUser saveUserNonce
  simp only [List.find?_map]
  have hpred : ((fun u : User => u.address == a) ∘
      (fun u : User => if u.address == a then { u with nonce := n } else u))
      = (fun u : User => u.address == a) := by
    funext u
    by_cases h : u.address == a <;> simp [Function.comp, h]
  rw [hpred]
  cases hf : List.find? (fun u : User => u.address == a) db.users with
  | none => rfl
  | some u =>
    have hp : u.address = a := by simpa using List.find?_some hf
    simp [hp]

/-- C10: whenever `LoginHandler` answers with a login success, the token it
emits is exactly the literal concatenation of the request address, a colon,
and the freshly rotated nonce — the nonce now stored for that address — and
the address field echoes the request address.  The token carries no other
component (no signature, no MAC), so anyone knowing the address and current
nonce can rebuild it. -/
theorem login_token_is_address_colon_nonce (C : EthCrypto) (supply : Nat → String)
    (ctr : Nat) (db : DB) (req : LoginRequest) (t a : String)
    (h : (LoginHandler C supply ctr db req).1 = HttpResponse.loginOk t a) :
    a = req.address ∧
    ∃ u, findUser (LoginHandler C supply ctr db req).2.1 req.address = some u ∧
      t = req.address ++ ":" ++ u.nonce := by
  by_cases hb : bindLoginRequest req = true
  · by_cases hv : VerifyEthereumSignature C req.message req.signature req.address = true
    · cases hf : findUser db req.address with
      | none =>
        have hnew : findUser
            ({ db with users := db.users ++ [⟨req.address, "", supply ctr⟩] } : DB) req.address
            = some ⟨req.address, "", supply ctr⟩ := by
          unfold findUser at hf ⊢
          simp [List.find?_append, hf]
        simp only [LoginHandler, hb, hv, hf, if_true, if_false, not_true, not_false_iff] at h ⊢
        simp only [HttpResponse.loginOk.injEq] at h
        refine ⟨h.2.symm, ⟨req.address, "", supply (ctr + 1)⟩, ?_, ?_⟩
        · rw [findUser_saveUserNonce, hnew]
          rfl
        · exact h.1.symm
      | some u =>
        simp only [LoginHandler, hb, hv, hf, if_true, if_false, not_true, not_false_iff] at h ⊢
        simp only [HttpResponse.loginOk.injEq] at h
        refine ⟨h.2.symm, { u with nonce := supply ctr }, ?_, ?_⟩
        · rw [findUser_saveUserNonce, hf]
          rfl
        · exact h.1.symm
    · simp [LoginHandler, hb, hv] at h
  · simp [LoginHandler, hb] at h

/-- C10 witness: a successful login for the stored user `0xabc` emits the
token `"0xabc:N0"`, and `N0` is exactly the nonce stored for `0xabc`
afterwards. -/
theorem login_token_is_address_colon_nonce_witness :
    ∃ u, findUser (LoginHandler (acceptCrypto "0xabc") testSupply 0 dbOneUser
        { address := "0xabc", signature := sig65, message := "hi", nonce := "n0" }).2.1
        "0xabc" = some u ∧
      ("0xabc:N0" : String) = "0xabc" ++ ":" ++ u.nonce :=
  (login_token_is_address_colon_nonce (acceptCrypto "0xabc") testSupply 0 dbOneUser
    { address := "0xabc", signature := sig65, message := "hi", nonce := "n0" }
    "0xabc:N0" "0xabc" (by decide)).2
